import Mathlib

/-
Verification of the post-store query/mutation layer of a small blog API
(`backend/backend_app.py`). The store is an ordered list of posts; the
operations below are shallow embeddings of the route handlers `get_posts`,
`add_post`, `delete_post`, `update_post` and `search_posts`, with the HTTP
transport stripped away: query parameters become `Option String` arguments,
JSON payloads become either extracted fields (`add_post`, whose validation
starts after the body guard) or a string-valued association list standing for
the parsed JSON dict (`update_post`, whose body guard `if not data` is part
of the modelled region), and each handler returns `Except` with the error
message it would serialize into `{"error": ...}`.
-/

/-- A blog post record `{"id": ..., "title": ..., "content": ...}`. -/
structure Post where
  id : Nat
  title : String
  content : String
deriving DecidableEq, Repr

/-- Python `str.lower()`: per-character lowercasing (exact on ASCII data,
which is all the handlers compare). Defined on the character list so that
its structural properties are transparent. -/
def pyLower (s : String) : String := ⟨s.data.map Char.toLower⟩

/-- `charsLeadWith needle hay` is true when `needle` starts `hay`. -/
def charsLeadWith : List Char → List Char → Bool
  | [], _ => true
  | _ :: _, [] => false
  | a :: as, b :: bs => a = b && charsLeadWith as bs

/-- Substring test on character lists: some suffix of `hay` starts with `needle`. -/
def pyInAux (needle : List Char) : List Char → Bool
  | [] => needle.isEmpty
  | c :: rest => charsLeadWith needle (c :: rest) || pyInAux needle rest

/-- Python's substring test `needle in hay` on strings. -/
def pyIn (needle hay : String) : Bool := pyInAux needle.data hay.data

/-- Lexicographic (codepoint-wise) `≤` on character lists: how Python
compares the string sort keys. -/
def charListLe : List Char → List Char → Bool
  | [], _ => true
  | _ :: _, [] => false
  | a :: as, b :: bs => if a < b then true else if b < a then false else charListLe as bs

/-- Python string comparison `a <= b` (lexicographic on code points). -/
def pyStrLe (a b : String) : Bool := charListLe a.data b.data

/-- Insert `x` into `l` immediately before the first element `y` with `r x y`. -/
def ordIns {α : Type} (r : α → α → Bool) (x : α) : List α → List α
  | [] => [x]
  | y :: l => if r x y then x :: y :: l else y :: ordIns r x l

/-- Insertion sort with comparator `r`; stable when `r` is a non-strict order. -/
def insSort {α : Type} (r : α → α → Bool) : List α → List α
  | [] => []
  | x :: l => ordIns r x (insSort r l)

/-- Python `sorted(l, key=key, reverse=rev)` for string keys: a stable
comparison sort. CPython documents that `reverse=True` reverses each
comparison while remaining stable, so equal keys keep their original
relative order in both directions. -/
def pySorted (key : Post → String) (rev : Bool) (l : List Post) : List Post :=
  if rev then insSort (fun a b => pyStrLe (key b) (key a)) l
  else insSort (fun a b => pyStrLe (key a) (key b)) l

/-- Dictionary field access `post[f]` for `f ∈ {"title", "content"}`. -/
def getField (f : String) (p : Post) : String :=
  if f = "title" then p.title else p.content

/-- The sort key `lambda post: post[sort_field].lower()`. -/
def sortKey (sort_field : String) (post : Post) : String :=
  pyLower (getField sort_field post)

/-- Handler `get_posts` (GET /api/posts): `sort` and `direction` query
parameters; an absent parameter and a present-but-empty one both reach the
handler as the default of `request.args.get`, modelled by `Option.getD`. -/
def get_posts (sortArg dirArg : Option String) (posts : List Post) :
    Except String (List Post) :=
  let sort_field := pyLower (sortArg.getD "")
  let direction := pyLower (dirArg.getD "asc")
  if sort_field = "" then Except.ok posts
  else if sort_field ∉ (["title", "content"] : List String) then
    Except.error "Invalid sort field. Must be 'title' or 'content'"
  else if direction ∉ (["asc", "desc"] : List String) then
    Except.error "Invalid direction. Must be 'asc' or 'desc'"
  else
    Except.ok (pySorted (sortKey sort_field) (direction = "desc") posts)

/-- Python `max(posts ids, default=0)`; `foldl max 0` agrees on `Nat`. -/
def maxId (posts : List Post) : Nat := (posts.map Post.id).foldl max 0

/-- Handler `add_post` (POST /api/posts) from the field extraction on:
`title`/`content` are `data.get(...)` results (`none` when the key is
absent), and Python's falsy test `not title` holds exactly when the field
is absent or the empty string. -/
def add_post (title content : Option String) (posts : List Post) :
    Except String (Post × List Post) :=
  let missing_fields :=
    (if title.getD "" = "" then ["title"] else []) ++
    (if content.getD "" = "" then ["content"] else [])
  if missing_fields ≠ [] then
    Except.error ("Missing required field(s): " ++ String.intercalate ", " missing_fields)
  else
    let new_id := maxId posts + 1
    let new_post : Post := { id := new_id, title := title.getD "", content := content.getD "" }
    Except.ok (new_post, posts ++ [new_post])

/-- Handler `delete_post` (DELETE /api/posts/id): the source rebuilds the
store as `[post for post in POSTS if post["id"] != post_id]`. -/
def delete_post (post_id : Nat) (posts : List Post) :
    Except String (String × List Post) :=
  match posts.find? (fun post => post.id = post_id) with
  | none => Except.error ("Post with id " ++ toString post_id ++ " not found")
  | some _ =>
    Except.ok ("Post with id " ++ toString post_id ++ " has been deleted successfully.",
      posts.filter (fun post => post.id ≠ post_id))

/-- A parsed JSON object with string values, as an association list; `[]`
is the empty dict `{}`, which is falsy in Python. -/
abbrev Payload : Type := List (String × String)

/-- Python `data.get(k)`: value of the first (only) binding of key `k`. -/
def pyDictGet (data : Payload) (k : String) : Option String :=
  (List.find? (fun kv => kv.1 = k) data).map (fun kv => kv.2)

/-- Python `data.get(k, d)`: `d` only when the key `k` is absent. -/
def pyDictGetD (data : Payload) (k d : String) : String := (pyDictGet data k).getD d

/-- In-place mutation of the found post: replace the first element whose id
is `post_id` (the one `next(...)` returned) by `updated`. -/
def setFirstById (post_id : Nat) (updated : Post) : List Post → List Post
  | [] => []
  | p :: ps => if p.id = post_id then updated :: ps else p :: setFirstById post_id updated ps

/-- Handler `update_post` (PUT /api/posts/id), including its body guard
`if not data` (an empty payload is falsy and rejected). -/
def update_post (post_id : Nat) (data : Payload) (posts : List Post) :
    Except String (Post × List Post) :=
  if data = ([] : Payload) then Except.error "Request must be JSON"
  else
    match posts.find? (fun post => post.id = post_id) with
    | none => Except.error ("Post with id " ++ toString post_id ++ " not found")
    | some post_to_update =>
      let title := pyDictGetD data "title" post_to_update.title
      let content := pyDictGetD data "content" post_to_update.content
      let updated := { post_to_update with title := title, content := content }
      Except.ok (updated, setFirstById post_id updated posts)

/-- Handler `search_posts` (GET /api/posts/search): each query is lower-cased,
and an empty query forces its match flag to `False`. -/
def search_posts (titleArg contentArg : Option String) (posts : List Post) : List Post :=
  let title_query := pyLower (titleArg.getD "")
  let content_query := pyLower (contentArg.getD "")
  posts.filter (fun post =>
    (if title_query ≠ "" then pyIn title_query (pyLower post.title) else false) ||
    (if content_query ≠ "" then pyIn content_query (pyLower post.content) else false))

/-- The module-level seed store `POSTS`. -/
def seedPosts : List Post :=
  [{ id := 1, title := "First post", content := "This is the first post." },
   { id := 2, title := "Second post", content := "This is the second post." }]

/-- Lower-casing a string yields the empty string only for the empty string. -/
theorem pyLower_eq_empty_iff (s : String) : pyLower s = "" ↔ s = "" := by
  rw [String.ext_iff, String.ext_iff]
  simp [pyLower]

@[simp] theorem pyLower_empty : pyLower "" = "" := rfl

/-- The initial accumulator bounds `List.foldl max` from below. -/
theorem le_foldl_max_init (l : List Nat) (b : Nat) : b ≤ l.foldl max b := by
  induction l generalizing b with
  | nil => exact Nat.le_refl b
  | cons x xs ih => exact Nat.le_trans (Nat.le_max_left b x) (ih (max b x))

/-- Every member bounds `List.foldl max` from below. -/
theorem le_foldl_max_of_mem {l : List Nat} {a : Nat} (b : Nat) (ha : a ∈ l) :
    a ≤ l.foldl max b := by
  induction l generalizing b with
  | nil => cases ha
  | cons x xs ih =>
    rcases List.mem_cons.mp ha with rfl | h
    · exact Nat.le_trans (Nat.le_max_right b a) (le_foldl_max_init xs (max b a))
    · exact ih (max b x) h

/-- Every id in the store is strictly below the id `add_post` would assign. -/
theorem lt_maxId_succ {posts : List Post} {q : Post} (hq : q ∈ posts) :
    q.id < maxId posts + 1 :=
  Nat.lt_succ_of_le (le_foldl_max_of_mem 0 (List.mem_map_of_mem Post.id hq))


/-- C10: when the `sort` parameter is absent or empty, `get_posts` returns the
full store in insertion order for every `direction` value, including invalid
ones such as `"sideways"`, without any direction validation. -/
theorem claim_c10_no_sort_skips_direction_validation (dirArg : Option String)
    (posts : List Post) :
    get_posts none dirArg posts = Except.ok posts ∧
    get_posts (some "") dirArg posts = Except.ok posts :=
  ⟨rfl, rfl⟩

/-- C8: with a present non-empty `sort` parameter, `get_posts` accepts exactly
`"title"`/`"content"` case-insensitively (any other value errors with the
invalid-sort-field message); `direction` defaults to `"asc"` when absent and
is validated case-insensitively against `"asc"`/`"desc"`, any other value
erroring with the invalid-direction message. The handler never mutates the
store: the error branches return no store and the success branch only reads
`posts`. -/
theorem claim_c8_sort_parameter_validation (posts : List Post) (s : String)
    (d : Option String) (hs : s ≠ "") :
    (pyLower s ∉ (["title", "content"] : List String) →
      get_posts (some s) d posts =
        Except.error "Invalid sort field. Must be 'title' or 'content'") ∧
    (pyLower s ∈ (["title", "content"] : List String) →
      pyLower (d.getD "asc") ∉ (["asc", "desc"] : List String) →
      get_posts (some s) d posts =
        Except.error "Invalid direction. Must be 'asc' or 'desc'") ∧
    (pyLower s ∈ (["title", "content"] : List String) →
      pyLower (d.getD "asc") ∈ (["asc", "desc"] : List String) →
      get_posts (some s) d posts =
        Except.ok
          (pySorted (sortKey (pyLower s)) (decide (pyLower (d.getD "asc") = "desc")) posts)) ∧
    get_posts (some s) none posts = get_posts (some s) (some "asc") posts := by
  have hls : pyLower s ≠ "" := fun h => hs ((pyLower_eq_empty_iff s).mp h)
  refine ⟨?_, ?_, ?_, rfl⟩
  · intro hmem
    simp only [get_posts, Option.getD_some]
    rw [if_neg hls, if_pos hmem]
  · intro hmem hdir
    simp only [get_posts, Option.getD_some]
    rw [if_neg hls, if_neg (not_not_intro hmem), if_pos hdir]
  · intro hmem hdir
    simp only [get_posts, Option.getD_some]
    rw [if_neg hls, if_neg (not_not_intro hmem), if_neg (not_not_intro hdir)]

/-- Witness for C8 at a concrete input: an unknown sort field is rejected. -/
theorem claim_c8_sort_parameter_validation_witness :
    get_posts (some "bogus") (some "desc") seedPosts =
      Except.error "Invalid sort field. Must be 'title' or 'content'" :=
  (claim_c8_sort_parameter_validation seedPosts "bogus" (some "desc")
    (by decide)).1 (by decide)

/-- The spec's match condition for `search`, written from its words: a post
matches iff (titleQuery is non-empty AND its lower-casing is a substring of
the post's lower-cased title) OR (contentQuery is non-empty AND its
lower-casing is a substring of the post's lower-cased content). -/
def specSearchMatch (titleArg contentArg : Option String) (post : Post) : Bool :=
  (decide (titleArg.getD "" ≠ "") && pyIn (pyLower (titleArg.getD "")) (pyLower post.title)) ||
  (decide (contentArg.getD "" ≠ "") && pyIn (pyLower (contentArg.getD "")) (pyLower post.content))

/-- C6: `search_posts` returns exactly the posts satisfying the spec's match
condition, in store order (a `filter` of the store, which it does not
mutate); with both queries empty or absent the result is empty even when
posts exist. -/
theorem claim_c6_search_filter (titleArg contentArg : Option String)
    (posts : List Post) :
    search_posts titleArg contentArg posts =
      posts.filter (specSearchMatch titleArg contentArg) ∧
    (titleArg.getD "" = "" → contentArg.getD "" = "" →
      search_posts titleArg contentArg posts = []) := by
  constructor
  · unfold search_posts
    apply List.filter_congr
    intro p _
    unfold specSearchMatch
    by_cases ht : titleArg.getD "" = "" <;> by_cases hc : contentArg.getD "" = "" <;>
      simp [ht, hc, pyLower_eq_empty_iff]
  · intro ht hc
    unfold search_posts
    simp [ht, hc]

/-- Witness for C6 at a concrete input: a store search with no queries is
empty, not the full list. -/
theorem claim_c6_search_filter_witness :
    search_posts none none seedPosts = [] :=
  (claim_c6_search_filter none none seedPosts).2 rfl rfl

/-- C7: `add_post` fails exactly when `title` or `content` is absent or empty
(so whitespace-only strings are accepted), and the error message names every
missing field as "Missing required field(s): ..." with both fields named
together when both are missing. On failure no store is produced, so the
store is unchanged. -/
theorem claim_c7_create_validation (title content : Option String)
    (posts : List Post) :
    ((title.getD "" = "" ∨ content.getD "" = "") ↔
      ∃ e, add_post title content posts = Except.error e) ∧
    (title.getD "" = "" → content.getD "" ≠ "" →
      add_post title content posts =
        Except.error "Missing required field(s): title") ∧
    (title.getD "" ≠ "" → content.getD "" = "" →
      add_post title content posts =
        Except.error "Missing required field(s): content") ∧
    (title.getD "" = "" → content.getD "" = "" →
      add_post title content posts =
        Except.error "Missing required field(s): title, content") := by
  by_cases ht : title.getD "" = "" <;> by_cases hc : content.getD "" = ""
  · have he : add_post title content posts =
        Except.error "Missing required field(s): title, content" := by
      simp [add_post, ht, hc]
      rfl
    exact ⟨⟨fun _ => ⟨_, he⟩, fun _ => Or.inl ht⟩,
      fun _ hc2 => absurd hc hc2, fun ht2 _ => absurd ht ht2, fun _ _ => he⟩
  · have he : add_post title content posts =
        Except.error "Missing required field(s): title" := by
      simp [add_post, ht, hc]
      rfl
    exact ⟨⟨fun _ => ⟨_, he⟩, fun _ => Or.inl ht⟩,
      fun _ _ => he, fun ht2 _ => absurd ht ht2, fun _ hc2 => absurd hc2 hc⟩
  · have he : add_post title content posts =
        Except.error "Missing required field(s): content" := by
      simp [add_post, ht, hc]
      rfl
    exact ⟨⟨fun _ => ⟨_, he⟩, fun _ => Or.inr hc⟩,
      fun ht2 _ => absurd ht2 ht, fun _ _ => he, fun ht2 _ => absurd ht2 ht⟩
  · have he : add_post title content posts =
        Except.ok ({ id := maxId posts + 1, title := title.getD "",
                     content := content.getD "" },
          posts ++ [{ id := maxId posts + 1, title := title.getD "",
                      content := content.getD "" }]) := by
      simp [add_post, ht, hc]
    refine ⟨⟨fun h => (h.elim (absurd · ht) (absurd · hc)), fun ⟨e, hee⟩ => ?_⟩,
      fun ht2 _ => absurd ht2 ht, fun _ hc2 => absurd hc2 hc,
      fun ht2 _ => absurd ht2 ht⟩
    rw [he] at hee
    exact absurd hee (by simp)

/-- Witness for C7 at a concrete input: a whitespace-only title counts as
present, so only `content` is reported missing. -/
theorem claim_c7_create_validation_witness :
    add_post (some " ") none seedPosts =
      Except.error "Missing required field(s): content" :=
  (claim_c7_create_validation (some " ") none seedPosts).2.2.1 (by decide) rfl

/-- C5: on a valid create, `add_post` assigns id `max(existing ids) + 1`
(which is `1` on the empty store), appends the new post at the end of the
store leaving the existing posts and their order unchanged, returns the
created post, and the returned id is strictly greater than every id present
before the call. -/
theorem claim_c5_create_success (title content : Option String)
    (posts : List Post) (ht : title.getD "" ≠ "") (hc : content.getD "" ≠ "") :
    add_post title content posts =
      Except.ok ({ id := maxId posts + 1, title := title.getD "",
                   content := content.getD "" },
        posts ++ [{ id := maxId posts + 1, title := title.getD "",
                    content := content.getD "" }]) ∧
    (posts = [] → maxId posts + 1 = 1) ∧
    ∀ q ∈ posts, q.id < maxId posts + 1 := by
  refine ⟨by simp [add_post, ht, hc], fun h => by subst h; rfl,
    fun q hq => lt_maxId_succ hq⟩

/-- Witness for C5 at a concrete input: creating on the seed store assigns
id 3 and appends at the end. -/
theorem claim_c5_create_success_witness :
    add_post (some "A") (some "B") seedPosts =
      Except.ok ({ id := 3, title := "A", content := "B" },
        seedPosts ++ [{ id := 3, title := "A", content := "B" }]) :=
  (claim_c5_create_success (some "A") (some "B") seedPosts (by decide)
    (by decide)).1

/-- Replacing the first id-match with the very post `find?` returned leaves
the store unchanged. -/
theorem setFirstById_self (post_id : Nat) (posts : List Post) (post : Post)
    (h : posts.find? (fun p => p.id = post_id) = some post) :
    setFirstById post_id post posts = posts := by
  induction posts with
  | nil => simp [List.find?] at h
  | cons p ps ih =>
    by_cases hp : p.id = post_id
    · simp [List.find?_cons, hp] at h
      subst h
      simp [setFirstById, hp]
    · simp [List.find?_cons, hp] at h
      simp [setFirstById, hp, ih h]

/-- C2 counterexample: a `title` key present with the empty string does NOT
retain the old title — the post's title becomes `""`, unlike the absent-key
case. This refutes treating present-but-falsy like absent. -/
theorem claim_c2_counterexample :
    update_post 1 [("title", "")] [{ id := 1, title := "Old", content := "C" }] =
      Except.ok ({ id := 1, title := "", content := "C" },
        [{ id := 1, title := "", content := "C" }]) ∧
    ("" : String) ≠ "Old" :=
  ⟨rfl, by decide⟩

/-- C2 amended: `dict.get(key, default)` falls back to the existing value
only when the key is ABSENT from the payload; a present key replaces the
attribute with its value even when that value is empty/falsy. -/
theorem claim_c2_amended_present_key_replaces (post_id : Nat) (data : Payload)
    (posts : List Post) (post : Post) (hdata : data ≠ [])
    (hfind : posts.find? (fun p => p.id = post_id) = some post) :
    update_post post_id data posts =
      Except.ok ({ id := post.id,
                   title := (pyDictGet data "title").getD post.title,
                   content := (pyDictGet data "content").getD post.content },
        setFirstById post_id
          { id := post.id,
            title := (pyDictGet data "title").getD post.title,
            content := (pyDictGet data "content").getD post.content } posts) := by
  simp [update_post, hdata, hfind, pyDictGetD]

/-- Witness for the amended C2 at a concrete input: a present-but-empty
`title` overwrites the old title with `""` while the absent `content` is
retained. -/
theorem claim_c2_amended_present_key_replaces_witness :
    update_post 1 [("title", "")] seedPosts =
      Except.ok ({ id := 1, title := "", content := "This is the first post." },
        setFirstById 1 { id := 1, title := "", content := "This is the first post." }
          seedPosts) :=
  claim_c2_amended_present_key_replaces 1 [("title", "")] seedPosts
    { id := 1, title := "First post", content := "This is the first post." }
    (by decide) rfl

/-- C4 counterexample: updating an existing post with a payload providing no
fields does not succeed — the empty JSON object is falsy, so the handler
rejects it with "Request must be JSON" (HTTP 400). -/
theorem claim_c4_counterexample :
    update_post 1 ([] : Payload) seedPosts = Except.error "Request must be JSON" ∧
    (update_post 1 ([] : Payload) seedPosts).toOption = none :=
  ⟨rfl, rfl⟩

/-- C4 amended: an update whose payload is the empty object fails with
"Request must be JSON"; an update with a non-empty payload that provides
neither `title` nor `content` succeeds and returns the post with both
attributes unchanged and the store unchanged. -/
theorem claim_c4_amended_empty_update (post_id : Nat) (data : Payload)
    (posts : List Post) (post : Post) :
    update_post post_id ([] : Payload) posts = Except.error "Request must be JSON" ∧
    (data ≠ [] → pyDictGet data "title" = none → pyDictGet data "content" = none →
      posts.find? (fun p => p.id = post_id) = some post →
      update_post post_id data posts = Except.ok (post, posts)) := by
  refine ⟨rfl, fun hd htk hck hfind => ?_⟩
  simp [update_post, hd, hfind, pyDictGetD, htk, hck]
  exact setFirstById_self post_id posts post hfind

/-- Witness for the amended C4 at a concrete input: a payload with only an
irrelevant key leaves post 1 and the store untouched. -/
theorem claim_c4_amended_empty_update_witness :
    update_post 1 [("x", "y")] seedPosts =
      Except.ok ({ id := 1, title := "First post",
                   content := "This is the first post." }, seedPosts) :=
  (claim_c4_amended_empty_update 1 [("x", "y")] seedPosts
    { id := 1, title := "First post", content := "This is the first post." }).2
    (by decide) rfl rfl rfl

/-- `find?` on a store whose prefix has no matching id returns the post at
the split point when that post matches. -/
theorem find?_append_cons_of_id (l1 : List Post) (p : Post) (l2 : List Post)
    (pid : Nat) (hl1 : ∀ q ∈ l1, q.id ≠ pid) (hp : p.id = pid) :
    (l1 ++ p :: l2).find? (fun post => post.id = pid) = some p := by
  induction l1 with
  | nil => simp [List.find?_cons, hp]
  | cons q l ih =>
    simp only [List.cons_append, List.find?_cons]
    rw [show decide (q.id = pid) = false from by simp [hl1 q (List.mem_cons_self q l)]]
    exact ih (fun r hr => hl1 r (List.mem_cons_of_mem q hr))

/-- C9: `delete_post` on an id present in a duplicate-free store removes
exactly that post (the store splits as `l1 ++ p :: l2` and becomes
`l1 ++ l2`, so every other post and the relative order are unchanged) and
returns the confirmation message; on an id that is absent it fails with the
not-found message, producing no store, so the store is unchanged. -/
theorem claim_c9_delete_semantics (post_id : Nat) (posts : List Post) :
    ((∀ p ∈ posts, p.id ≠ post_id) →
      delete_post post_id posts =
        Except.error ("Post with id " ++ toString post_id ++ " not found")) ∧
    ((posts.map Post.id).Nodup → ∀ p ∈ posts, p.id = post_id →
      ∃ l1 l2, posts = l1 ++ p :: l2 ∧
        delete_post post_id posts =
          Except.ok ("Post with id " ++ toString post_id ++
            " has been deleted successfully.", l1 ++ l2)) := by
  constructor
  · intro hall
    have hnone : posts.find? (fun post => post.id = post_id) = none :=
      List.find?_eq_none.mpr (fun x hx => by simp [hall x hx])
    simp [delete_post, hnone]
  · intro hnodup p hp hpid
    obtain ⟨l1, l2, rfl⟩ := List.append_of_mem hp
    rw [List.map_append, List.nodup_append] at hnodup
    obtain ⟨h1, h2, hdisj⟩ := hnodup
    rw [List.map_cons, List.nodup_cons] at h2
    have hl1 : ∀ q ∈ l1, q.id ≠ post_id := by
      intro q hq hqid
      exact hdisj (List.mem_map_of_mem Post.id hq)
        (by rw [List.map_cons]; exact (hqid.trans hpid.symm) ▸ List.mem_cons_self _ _)
    have hl2 : ∀ q ∈ l2, q.id ≠ post_id := by
      intro q hq hqid
      exact h2.1 ((hpid.trans hqid.symm) ▸ List.mem_map_of_mem Post.id hq)
    have hfind : (l1 ++ p :: l2).find? (fun post => post.id = post_id) = some p :=
      find?_append_cons_of_id l1 p l2 post_id hl1 hpid
    have hfilter : (l1 ++ p :: l2).filter (fun post => !decide (post.id = post_id)) =
        l1 ++ l2 := by
      rw [List.filter_append, List.filter_cons]
      rw [if_neg (by simp [hpid])]
      rw [List.filter_eq_self.mpr (fun a ha => by simp [hl1 a ha]),
        List.filter_eq_self.mpr (fun a ha => by simp [hl2 a ha])]
    exact ⟨l1, l2, rfl, by simp [delete_post, hfind, hfilter]⟩

/-- Witness for C9 at a concrete input: deleting an absent id fails with the
not-found message and the store is unchanged. -/
theorem claim_c9_delete_semantics_witness :
    delete_post 999 seedPosts = Except.error "Post with id 999 not found" :=
  (claim_c9_delete_semantics 999 seedPosts).1 (by decide)

/-- C3 counterexample: id 2 is assigned in the seed store, the post with
id 2 is deleted, and the very next create reassigns id 2 — ids ARE reused
after deletion, because `add_post` computes `max(current ids) + 1` over the
current store only. -/
theorem claim_c3_counterexample :
    (2 ∈ seedPosts.map Post.id) ∧
    delete_post 2 seedPosts =
      Except.ok ("Post with id 2 has been deleted successfully.",
        [{ id := 1, title := "First post", content := "This is the first post." }]) ∧
    add_post (some "A") (some "B")
        [{ id := 1, title := "First post", content := "This is the first post." }] =
      Except.ok ({ id := 2, title := "A", content := "B" },
        [{ id := 1, title := "First post", content := "This is the first post." },
         { id := 2, title := "A", content := "B" }]) :=
  ⟨by decide, rfl, rfl⟩

/-- C3 amended: within the CURRENT store the ids stay pairwise distinct and
every successful create returns an id strictly above all ids present at the
call; but an id freed by a deletion can be assigned again later (see the
counterexample), so assigned ids are not monotone over the store's lifetime
once deletions occur. -/
theorem claim_c3_amended_current_ids_fresh (title content : Option String)
    (posts : List Post) (p : Post) (rest : List Post)
    (hnodup : (posts.map Post.id).Nodup)
    (hok : add_post title content posts = Except.ok (p, rest)) :
    (∀ q ∈ posts, q.id < p.id) ∧ rest = posts ++ [p] ∧
      (rest.map Post.id).Nodup := by
  by_cases ht : title.getD "" = ""
  · simp [add_post, ht] at hok
  by_cases hc : content.getD "" = ""
  · simp [add_post, ht, hc] at hok
  simp [add_post, ht, hc] at hok
  obtain ⟨hp, hrest⟩ := hok
  subst hp
  subst hrest
  refine ⟨fun q hq => lt_maxId_succ hq, rfl, ?_⟩
  rw [List.map_append, List.nodup_append]
  refine ⟨hnodup, List.nodup_singleton _, ?_⟩
  intro a ha hb
  rw [List.map_singleton, List.mem_singleton] at hb
  obtain ⟨q, hq, rfl⟩ := List.mem_map.mp ha
  exact absurd hb (Nat.ne_of_lt (lt_maxId_succ hq))

/-- Witness for the amended C3 at a concrete input: creating on the seed
store appends the post with the fresh id 3. -/
theorem claim_c3_amended_current_ids_fresh_witness :
    seedPosts ++ [{ id := 3, title := "A", content := "B" }] =
      seedPosts ++ [{ id := 3, title := "A", content := "B" }] :=
  (claim_c3_amended_current_ids_fresh (some "A") (some "B") seedPosts
    { id := 3, title := "A", content := "B" }
    (seedPosts ++ [{ id := 3, title := "A", content := "B" }])
    (by decide)
    (by rfl)).2.1

/-- Totality of the lexicographic comparison. -/
theorem charListLe_total (a b : List Char) :
    charListLe a b = true ∨ charListLe b a = true := by
  induction a generalizing b with
  | nil => exact Or.inl rfl
  | cons x as ih =>
    cases b with
    | nil => exact Or.inr rfl
    | cons y bs =>
      rcases lt_trichotomy x y with h | h | h
      · exact Or.inl (by simp [charListLe, h])
      · subst h
        rcases ih bs with h2 | h2
        · exact Or.inl (by simp [charListLe, lt_irrefl, h2])
        · exact Or.inr (by simp [charListLe, lt_irrefl, h2])
      · exact Or.inr (by simp [charListLe, h])

/-- Transitivity of the lexicographic comparison. -/
theorem charListLe_trans {a b c : List Char} (hab : charListLe a b = true)
    (hbc : charListLe b c = true) : charListLe a c = true := by
  induction a generalizing b c with
  | nil => rfl
  | cons x as ih =>
    cases b with
    | nil => simp [charListLe] at hab
    | cons y bs =>
      cases c with
      | nil => simp [charListLe] at hbc
      | cons z cs =>
        rcases lt_trichotomy x y with hxy | hxy | hxy
        · rcases lt_trichotomy y z with hyz | hyz | hyz
          · simp [charListLe, lt_trans hxy hyz]
          · subst hyz; simp [charListLe, hxy]
          · simp [charListLe, asymm hyz, hyz] at hbc
        · subst hxy
          simp only [charListLe, lt_irrefl, if_false] at hab
          rcases lt_trichotomy x z with hxz | hxz | hxz
          · simp [charListLe, hxz]
          · subst hxz
            simp only [charListLe, lt_irrefl, if_false] at hbc ⊢
            exact ih hab hbc
          · simp [charListLe, asymm hxz, hxz] at hbc
        · simp [charListLe, asymm hxy, hxy] at hab

/-- Antisymmetry of the lexicographic comparison. -/
theorem charListLe_antisymm {a b : List Char} (hab : charListLe a b = true)
    (hba : charListLe b a = true) : a = b := by
  induction a generalizing b with
  | nil =>
    cases b with
    | nil => rfl
    | cons y bs => simp [charListLe] at hba
  | cons x as ih =>
    cases b with
    | nil => simp [charListLe] at hab
    | cons y bs =>
      rcases lt_trichotomy x y with h | h | h
      · simp [charListLe, asymm h, h] at hba
      · subst h
        simp only [charListLe, lt_irrefl, if_false] at hab hba
        rw [ih hab hba]
      · simp [charListLe, asymm h, h] at hab

theorem pyStrLe_total (a b : String) : pyStrLe a b = true ∨ pyStrLe b a = true :=
  charListLe_total a.data b.data

theorem pyStrLe_trans {a b c : String} (hab : pyStrLe a b = true)
    (hbc : pyStrLe b c = true) : pyStrLe a c = true :=
  charListLe_trans hab hbc

theorem pyStrLe_antisymm {a b : String} (hab : pyStrLe a b = true)
    (hba : pyStrLe b a = true) : a = b :=
  String.ext (charListLe_antisymm hab hba)

/-- Membership through insertion. -/
theorem mem_ordIns {α : Type} (r : α → α → Bool) (x : α) (l : List α) (z : α) :
    z ∈ ordIns r x l ↔ z = x ∨ z ∈ l := by
  induction l with
  | nil => simp [ordIns]
  | cons y ys ih =>
    by_cases h : r x y = true
    · simp only [ordIns, if_pos h, List.mem_cons]
      try tauto
    · simp only [ordIns, if_neg h, List.mem_cons, ih]
      try tauto

/-- Membership through insertion sort. -/
theorem mem_insSort {α : Type} (r : α → α → Bool) (l : List α) (z : α) :
    z ∈ insSort r l ↔ z ∈ l := by
  induction l with
  | nil => simp [insSort]
  | cons y ys ih =>
    simp only [insSort, mem_ordIns, ih, List.mem_cons]

/-- For a total transitive comparator, insertion preserves sortedness. -/
theorem pairwise_ordIns {α : Type} (r : α → α → Bool)
    (htotal : ∀ a b, r a b = true ∨ r b a = true)
    (htrans : ∀ a b c, r a b = true → r b c = true → r a c = true)
    (x : α) (l : List α) (hl : l.Pairwise (fun a b => r a b = true)) :
    (ordIns r x l).Pairwise (fun a b => r a b = true) := by
  induction l with
  | nil => simp [ordIns]
  | cons y ys ih =>
    rcases List.pairwise_cons.mp hl with ⟨hy, hys⟩
    by_cases h : r x y = true
    · rw [ordIns, if_pos h]
      refine List.pairwise_cons.mpr ⟨?_, hl⟩
      intro z hz
      rcases List.mem_cons.mp hz with rfl | hz2
      · exact h
      · exact htrans x y z h (hy z hz2)
    · rw [ordIns, if_neg h]
      refine List.pairwise_cons.mpr ⟨?_, ih hys⟩
      intro z hz
      rcases (mem_ordIns r x ys z).mp hz with hzx | hz2
      · rw [hzx]; exact (htotal x y).resolve_left h
      · exact hy z hz2

/-- For a total transitive comparator, `insSort` sorts. -/
theorem pairwise_insSort {α : Type} (r : α → α → Bool)
    (htotal : ∀ a b, r a b = true ∨ r b a = true)
    (htrans : ∀ a b c, r a b = true → r b c = true → r a c = true)
    (l : List α) : (insSort r l).Pairwise (fun a b => r a b = true) := by
  induction l with
  | nil => simp [insSort]
  | cons y ys ih => exact pairwise_ordIns r htotal htrans y (insSort r ys) ih

/-- Inserting before a final element that compares after `x` commutes with
the append. -/
theorem ordIns_append_last {α : Type} (r : α → α → Bool) (x y : α)
    (hxy : r x y = true) (l : List α) :
    ordIns r x (l ++ [y]) = ordIns r x l ++ [y] := by
  induction l with
  | nil => simp [ordIns, hxy]
  | cons a as ih =>
    by_cases h : r x a = true
    · simp [ordIns, h]
    · simp [ordIns, h, ih]

/-- When `x` compares after every element, insertion appends it. -/
theorem ordIns_append_of_all_neg {α : Type} (r : α → α → Bool) (x : α)
    (l : List α) (h : ∀ z ∈ l, r x z = false) :
    ordIns r x l = l ++ [x] := by
  induction l with
  | nil => rfl
  | cons a as ih =>
    have ha := h a (List.mem_cons_self a as)
    simp [ordIns, ha, ih (fun z hz => h z (List.mem_cons_of_mem a hz))]

/-- Inserting with the flipped comparator into the reverse of a sorted list
is the reverse of inserting with the original comparator, provided the new
element ties with no list element. -/
theorem ordIns_reverse {α : Type} (r : α → α → Bool)
    (htotal : ∀ a b, r a b = true ∨ r b a = true)
    (htrans : ∀ a b c, r a b = true → r b c = true → r a c = true)
    (x : α) (m : List α)
    (hsorted : m.Pairwise (fun a b => r a b = true))
    (hnotie : ∀ z ∈ m, ¬(r x z = true ∧ r z x = true)) :
    ordIns (fun a b => r b a) x m.reverse = (ordIns r x m).reverse := by
  induction m with
  | nil => rfl
  | cons y m' ih =>
    rcases List.pairwise_cons.mp hsorted with ⟨hy, hm'⟩
    by_cases hxy : r x y = true
    · have hall : ∀ z ∈ (y :: m'), r x z = true := by
        intro z hz
        rcases List.mem_cons.mp hz with rfl | hz2
        · exact hxy
        · exact htrans x y z hxy (hy z hz2)
      have hfalse : ∀ z ∈ (y :: m').reverse, (fun a b => r b a) x z = false := by
        intro z hz
        rw [List.mem_reverse] at hz
        cases hrz : r z x with
        | false => exact hrz
        | true => exact absurd ⟨hall z hz, hrz⟩ (hnotie z hz)
      rw [ordIns_append_of_all_neg _ x _ hfalse]
      rw [show ordIns r x (y :: m') = x :: y :: m' from by simp [ordIns, hxy]]
      simp
    · have hyx : r y x = true := (htotal x y).resolve_left hxy
      rw [show (y :: m').reverse = m'.reverse ++ [y] from by simp]
      rw [ordIns_append_last (fun a b => r b a) x y hyx m'.reverse]
      rw [ih hm' (fun z hz => hnotie z (List.mem_cons_of_mem y hz))]
      rw [show ordIns r x (y :: m') = y :: ordIns r x m' from by simp [ordIns, hxy]]
      simp

/-- Sorting with the flipped comparator equals reversing the sort with the
original comparator when no two elements tie. -/
theorem insSort_reverse_of_no_ties {α : Type} (r : α → α → Bool)
    (htotal : ∀ a b, r a b = true ∨ r b a = true)
    (htrans : ∀ a b c, r a b = true → r b c = true → r a c = true)
    (l : List α)
    (hnoties : l.Pairwise (fun a b => ¬(r a b = true ∧ r b a = true))) :
    insSort (fun a b => r b a) l = (insSort r l).reverse := by
  induction l with
  | nil => rfl
  | cons x l' ih =>
    rcases List.pairwise_cons.mp hnoties with ⟨hx, hl'⟩
    show ordIns (fun a b => r b a) x (insSort (fun a b => r b a) l') = _
    rw [ih hl']
    rw [ordIns_reverse r htotal htrans x (insSort r l')
      (pairwise_insSort r htotal htrans l')
      (fun z hz => hx z ((mem_insSort r l' z).mp hz))]
    rfl

/-- Two posts whose titles differ only by case, so their lower-cased sort
keys tie. -/
def tiedPosts : List Post :=
  [{ id := 1, title := "A", content := "x" },
   { id := 2, title := "a", content := "y" }]

/-- C1 counterexample: on two posts with equal lower-cased title keys,
`direction=desc` returns them in insertion order `[1, 2]` — NOT the reverse
`[2, 1]` of the stable ascending output. CPython's `sorted(..., reverse=True)`
is stable (ties keep their original relative order), so descending output is
not the exact reverse of the ascending sequence once keys tie. -/
theorem claim_c1_counterexample :
    get_posts (some "title") (some "asc") tiedPosts = Except.ok tiedPosts ∧
    get_posts (some "title") (some "desc") tiedPosts = Except.ok tiedPosts ∧
    tiedPosts ≠ tiedPosts.reverse :=
  ⟨rfl, rfl, by decide⟩

/-- C1 amended: `"desc"` is the stable sort with every comparison reversed,
so tied posts keep their insertion order; the descending output equals the
exact reverse of the stable ascending output whenever the lower-cased sort
keys are pairwise distinct (and only the tie order differs otherwise). -/
theorem claim_c1_amended_desc_reverses_asc_on_distinct_keys (sf : String)
    (posts : List Post) (hsf : sf = "title" ∨ sf = "content")
    (hkeys : (posts.map (sortKey sf)).Nodup) :
    get_posts (some sf) (some "desc") posts =
      (get_posts (some sf) (some "asc") posts).map List.reverse := by
  have hnoties : posts.Pairwise
      (fun a b => ¬(pyStrLe (sortKey sf a) (sortKey sf b) = true ∧
        pyStrLe (sortKey sf b) (sortKey sf a) = true)) := by
    have hne := (List.pairwise_map).mp hkeys
    exact hne.imp (fun hab h => hab (pyStrLe_antisymm h.1 h.2))
  have hrev := insSort_reverse_of_no_ties
    (fun a b => pyStrLe (sortKey sf a) (sortKey sf b))
    (fun a b => pyStrLe_total _ _)
    (fun a b c hab hbc => pyStrLe_trans hab hbc)
    posts hnoties
  rcases hsf with rfl | rfl
  · show Except.ok
        (insSort (fun a b => pyStrLe (sortKey "title" b) (sortKey "title" a)) posts) =
      Except.ok
        ((insSort (fun a b => pyStrLe (sortKey "title" a) (sortKey "title" b)) posts).reverse)
    exact congrArg Except.ok hrev
  · show Except.ok
        (insSort (fun a b => pyStrLe (sortKey "content" b) (sortKey "content" a)) posts) =
      Except.ok
        ((insSort (fun a b => pyStrLe (sortKey "content" a) (sortKey "content" b)) posts).reverse)
    exact congrArg Except.ok hrev

/-- Witness for the amended C1 at a concrete input: on the seed store, whose
lower-cased titles are distinct, descending is the reverse of ascending. -/
theorem claim_c1_amended_desc_reverses_asc_on_distinct_keys_witness :
    get_posts (some "title") (some "desc") seedPosts =
      (get_posts (some "title") (some "asc") seedPosts).map List.reverse :=
  claim_c1_amended_desc_reverses_asc_on_distinct_keys "title" seedPosts
    (Or.inl rfl) (by decide)
